import Mathlib

/-!
Verification development for the spherify batch execution engine
(`src/spherify/spherify.py`, `src/spherify/cli.py`, `src/spherify/__main__.py`
and the legacy single-file variant `spherify.py`).

The Python code is shallowly embedded: pure computations become Lean
functions, filesystem and subprocess effects are made explicit through
oracle functions (the deterministic external engine, the save-success
oracle, the state a path is in on disk), and Python exceptions become
`Except` values.
-/

namespace Spherify

/-- Raw binary data exchanged with the external process: one natural number
per byte. -/
abbrev Bytes := List Nat

/-- Model of a `PIL.Image` in RGBA mode as used by the program: a width, a
height and the raw 4-bytes-per-pixel data returned by `Image.tobytes()`. -/
structure Image where
  width : Nat
  height : Nat
  data : Bytes
deriving DecidableEq, Repr

/-- `PIL.Image.tobytes()`: the raw RGBA byte stream of the image. -/
def Image.tobytes (img : Image) : Bytes := img.data

/-- `PIL.Image.frombytes(mode, size, data)` (bound as `img_from_bytes` in
`spherify.py`): builds an image of the given `size` from raw RGBA bytes.
The color mode is fixed by the program to RGBA (`IMG_MODE`). -/
def img_from_bytes (size : Nat × Nat) (data : Bytes) : Image :=
  Image.mk size.1 size.2 data

/-- The condition of a file candidate on disk, as distinguished by
`load_image` in `spherify.py`: `absent` (the path cannot be stat-ed, so
`Path.stat` raises `FileNotFoundError`), `unreadable` (`open` raises
`PermissionError`), `unrecognized` (PIL raises `UnidentifiedImageError`),
or a file that loads and converts to the RGBA image `img`. -/
inductive FileState where
  | absent
  | unreadable
  | unrecognized
  | image (img : Image)
deriving DecidableEq, Repr

/-- A resolved file candidate: its file name (`Path.name`) and its state. -/
structure FileCand where
  name : String
  st : FileState
deriving DecidableEq, Repr

/-- A filesystem node supplied as an input target: either a file (with its
state) or a directory with children, which may be nested arbitrarily. -/
inductive Node where
  | fileNode (name : String) (st : FileState)
  | dirNode (name : String) (children : List Node)

/-- Python exceptions that can escape the per-target pipeline:
`fileNotFound` (`FileNotFoundError` raised by `Path.stat` on a missing
path inside the log f-string of `load_image`, which sits outside the `try`
block) and `writeFailed` (an `OSError` raised by `Image.save` inside
`save_image`, which nothing in the source catches). -/
inductive PyError where
  | fileNotFound
  | writeFailed
deriving DecidableEq, Repr

/-- The batch-wide configuration held by `Handler.__init__` in
`spherify.py`. Field order: save directory (`save_dir`), output file name
prefix (`out_file_prefix`), display flag (`display`), sphere center already
comma-joined as a string (`center`), radius rendered by `str` (`radius`),
sampling density, snapshot width and height, Julia binary name/path, Julia
script path, and the concurrency flag (`concurrent`). -/
structure Config where
  saveDir : Option String
  outFilePref : String
  display : Bool
  center : String
  radius : String
  samplingDensity : Nat
  snapW : Nat
  snapH : Nat
  juliaBinary : String
  juliaScript : String
  concurrent : Bool

/-- `Handler.get_julia_command_args`: the argv list for one engine call,
built from the batch configuration and the loaded image's actual
dimensions (`img.width`, `img.height`). -/
def get_julia_command_args (cfg : Config) (img : Image) : List String :=
  [cfg.juliaBinary,
   cfg.juliaScript,
   Nat.repr img.width ++ "," ++ Nat.repr img.height,
   cfg.center,
   cfg.radius,
   Nat.repr cfg.samplingDensity,
   Nat.repr cfg.snapW ++ "," ++ Nat.repr cfg.snapH]

/-- A deterministic model of the external engine process: a function from
the argv it is started with and the bytes written to its stdin to the pair
(stdout bytes, stderr bytes) it produces. -/
abbrev Engine := List String → Bytes → Bytes × Bytes

/-- The command string built by `Handler.run_julia` via `' '.join(args)`,
at the level of its character data. -/
def shell_command (args : List String) : List Char :=
  List.intercalate [' '] (args.map String.data)

/-- The default IFS field separators of `/bin/sh`: space, tab, newline. -/
def is_ifs (c : Char) : Bool := c == ' ' || c == '\t' || c == '\n'

/-- Models POSIX shell field splitting of the command line handed to
`/bin/sh` by `asyncio.create_subprocess_shell`: the string is split at
default-IFS whitespace (space, tab, newline) and empty fields are
discarded. This is the shell's exact behavior on command strings whose
non-separator characters are all shell-plain (no quoting, no expansions,
no operators); every theorem below that relies on this model guards it
with that condition, except where the only non-plain character is the
space of the counterexample's binary name, on which splitting is likewise
the shell's exact behavior. -/
def shell_fields (cs : List Char) : List String :=
  ((cs.splitOnP is_ifs).filter (fun w => w ≠ [])).map (fun w => String.mk w)

/-- `Handler.run_julia` (concurrent path): joins the argv with spaces and
hands the single command line to the shell
(`create_subprocess_shell(cmd=' '.join(args), ...)`), writes
`img.tobytes()` to the engine's stdin and returns (stdout, stderr). -/
def run_julia (engine : Engine) (cfg : Config) (img : Image) : Bytes × Bytes :=
  engine (shell_fields (shell_command (get_julia_command_args cfg img)))
    (Image.tobytes img)

/-- `Handler.run_julia_non_async` (sequential path): passes the argv list
directly to `subprocess.run(args, input=img.tobytes(), capture_output=True)`
and returns (stdout, stderr). -/
def run_julia_non_async (engine : Engine) (cfg : Config) (img : Image) :
    Bytes × Bytes :=
  engine (get_julia_command_args cfg img) (Image.tobytes img)

/-- `load_image` (and its line-for-line twin `load_image_non_async`): first
evaluates `img_path.stat().st_size` inside a log f-string — outside the
`try` block, so a missing path raises `FileNotFoundError` — then opens and
decodes the file, catching `PermissionError` and `UnidentifiedImageError`
and returning `None` for both; a decodable file is converted to RGBA and
returned. -/
def load_image (st : FileState) : Except PyError (Option Image) :=
  match st with
  | FileState.absent => Except.error PyError.fileNotFound
  | FileState.unreadable => Except.ok none
  | FileState.unrecognized => Except.ok none
  | FileState.image img => Except.ok (some img)

/-- `Handler.get_save_path`:
`Path(self.save_dir, self.out_file_prefix + input_path.name)`. -/
def get_save_path (cfg : Config) (d : String) (name : String) : String :=
  d ++ "/" ++ cfg.outFilePref ++ name

/-- `Handler._process_julia_output`: reconstructs the output image from the
engine's stdout bytes using `old_size`, the original input image's
`(width, height)` (`img.size`) — not the requested snapshot size. -/
def process_julia_output (stdout : Bytes) (old_size : Nat × Nat) : Image :=
  img_from_bytes old_size stdout

/-- `save_image` / `save_image_non_async`: a bare `image.save(target_path)`.
Whether the underlying filesystem write succeeds is modelled by the oracle
`saveOk`; on failure `Image.save` raises, modelled as `writeFailed`. -/
def save_image (saveOk : String → Bool) (target_path : String) :
    Except PyError Unit :=
  if saveOk target_path then Except.ok () else Except.error PyError.writeFailed

/-- The per-target pipeline, shared line for line by `Handler.spherify`
(concurrent) and `Handler.spherify_non_async` (sequential); the two differ
only in the subprocess exchange, abstracted here as `runner`. Returns the
per-target outcome (`some` image or `none`) together with the save path
written for this target (`none` when no save happened). -/
def spherify_with (cfg : Config) (runner : Image → Bytes × Bytes)
    (saveOk : String → Bool) (c : FileCand) :
    Except PyError (Option Image × Option String) :=
  match load_image c.st with
  | Except.error e => Except.error e
  | Except.ok none => Except.ok (none, none)
  | Except.ok (some img) =>
    let out := runner img
    if out.2 ≠ [] then Except.ok (none, none)
    else
      let result := process_julia_output out.1 (img.width, img.height)
      match cfg.saveDir with
      | none => Except.ok (some result, none)
      | some d =>
        match save_image saveOk (get_save_path cfg d c.name) with
        | Except.error e => Except.error e
        | Except.ok _ => Except.ok (some result, some (get_save_path cfg d c.name))

/-- The one-level extraction `Handler.path_iter` applies to a directory's
direct children: a direct file becomes a candidate, a direct sub-directory
is skipped (`if file.is_dir(): continue`). -/
def top_file : Node → Option FileCand
  | Node.fileNode nm st => some (FileCand.mk nm st)
  | Node.dirNode _ _ => none

namespace Handler

/-- `Handler.spherify`: the concurrent-mode per-target coroutine, whose
subprocess exchange is `run_julia`. -/
def spherify (cfg : Config) (engine : Engine) (saveOk : String → Bool)
    (c : FileCand) : Except PyError (Option Image × Option String) :=
  spherify_with cfg (run_julia engine cfg) saveOk c

/-- `Handler.spherify_non_async`: the sequential-mode per-target function,
whose subprocess exchange is `run_julia_non_async`. -/
def spherify_non_async (cfg : Config) (engine : Engine) (saveOk : String → Bool)
    (c : FileCand) : Except PyError (Option Image × Option String) :=
  spherify_with cfg (run_julia_non_async engine cfg) saveOk c

/-- `Handler.path_iter`: expands each input path into file candidates. A
directory contributes its direct entries with sub-directories skipped;
any other path (no further checks performed) contributes itself. -/
def path_iter (inputs : List Node) : List FileCand :=
  inputs.flatMap (fun p =>
    match p with
    | Node.fileNode nm st => [FileCand.mk nm st]
    | Node.dirNode _ children => children.filterMap top_file)

end Handler

/-- The per-target outcome entry as it appears in the results list, with
`none` both for a classified per-target failure; only meaningful on
candidates whose pipeline does not raise. -/
def result_of (cfg : Config) (runner : Image → Bytes × Bytes)
    (saveOk : String → Bool) (c : FileCand) : Option Image :=
  match spherify_with cfg runner saveOk c with
  | Except.ok r => r.1
  | Except.error _ => none

/-- The save path written for a candidate (`none` when that target saved
nothing or raised). -/
def save_rec (cfg : Config) (runner : Image → Bytes × Bytes)
    (saveOk : String → Bool) (c : FileCand) : Option String :=
  match spherify_with cfg runner saveOk c with
  | Except.ok r => r.2
  | Except.error _ => none

/-- Whether the save stage can succeed for candidate `c` under the current
configuration: trivially true with no save directory configured, otherwise
the write at the candidate's save path must succeed. -/
def save_ok_for (cfg : Config) (saveOk : String → Bool) (c : FileCand) : Bool :=
  match cfg.saveDir with
  | none => true
  | some d => saveOk (get_save_path cfg d c.name)

/-- `Handler._gather_results` (concurrent mode):
`asyncio.gather(*path_iter(spherify))` awaits every per-target coroutine
and collects their values in input order; an exception raised by any task
propagates out of `gather`. On a candidate list this is the effectful map
over `Except`. -/
def gather_map (cfg : Config) (runner : Image → Bytes × Bytes)
    (saveOk : String → Bool) :
    List FileCand → Except PyError (List (Option Image))
  | [] => Except.ok []
  | c :: rest =>
    match Except.map Prod.fst (spherify_with cfg runner saveOk c) with
    | Except.error e => Except.error e
    | Except.ok r =>
      match gather_map cfg runner saveOk rest with
      | Except.error e => Except.error e
      | Except.ok rs => Except.ok (r :: rs)

/-- `Handler._gather_results_non_async` (sequential mode): a left-to-right
list comprehension over `spherify_non_async`; an exception aborts the
comprehension but files already written stay written. Alongside the
`Except`-valued results list this returns the save paths actually written
before completion or abort. -/
def gather_fold (cfg : Config) (runner : Image → Bytes × Bytes)
    (saveOk : String → Bool) :
    List FileCand → List String × Except PyError (List (Option Image))
  | [] => ([], Except.ok [])
  | c :: rest =>
    match spherify_with cfg runner saveOk c with
    | Except.error e => ([], Except.error e)
    | Except.ok r =>
      let g := gather_fold cfg runner saveOk rest
      (r.2.toList ++ g.1,
       match g.2 with
       | Except.error e => Except.error e
       | Except.ok rs => Except.ok (r.1 :: rs))

namespace Handler

/-- `Handler._gather_results` applied to the expanded input paths. -/
def gather_results (cfg : Config) (engine : Engine) (saveOk : String → Bool)
    (inputs : List Node) : Except PyError (List (Option Image)) :=
  gather_map cfg (run_julia engine cfg) saveOk (path_iter inputs)

/-- `Handler._gather_results_non_async` applied to the expanded input
paths, together with the save paths written. -/
def gather_results_non_async (cfg : Config) (engine : Engine)
    (saveOk : String → Bool) (inputs : List Node) :
    List String × Except PyError (List (Option Image)) :=
  gather_fold cfg (run_julia_non_async engine cfg) saveOk (path_iter inputs)

end Handler

/-- `str.lower()` as applied by `Handler.__init__` to the prompt answer,
modelled character-wise (ASCII case folding, which covers the tokens
`strtobool` recognises). -/
def py_lower (s : String) : String := String.mk (s.data.map Char.toLower)

/-- `distutils.util.strtobool` (Python standard library, called by
`Handler.__init__` on the lowercased answer): maps the recognised tokens to
a boolean and raises `ValueError` (modelled as `none`) on anything else. -/
def strtobool (s : String) : Option Bool :=
  if s = "y" ∨ s = "yes" ∨ s = "t" ∨ s = "true" ∨ s = "on" ∨ s = "1" then
    some true
  else if s = "n" ∨ s = "no" ∨ s = "f" ∨ s = "false" ∨ s = "off" ∨ s = "0" then
    some false
  else none

/-- How `Handler` construction ends: normally (`proceed`), with the
`AbortExecution` exception (`abortExecution`, caught in `__main__.main`),
or with an uncaught `ValueError` from `strtobool` (`valueError`). -/
inductive ConfirmOutcome where
  | proceed
  | abortExecution
  | valueError
deriving DecidableEq, Repr

/-- The condition under which `Handler.__init__` warns and prompts before
any processing: display disabled and no save directory configured. -/
def preflight_prompted (cfg : Config) : Bool :=
  !cfg.display && cfg.saveDir.isNone

/-- The pre-flight check in `Handler.__init__`: when the results would be
neither displayed nor saved, the user is warned and asked to confirm; a
recognised negative answer raises `AbortExecution`, an unrecognised answer
makes `strtobool` raise `ValueError`, a recognised positive answer (or no
prompt at all) lets construction proceed. The answer is lowercased first. -/
def handler_preflight (cfg : Config) (answer : String) : ConfirmOutcome :=
  if preflight_prompted cfg then
    match strtobool (py_lower answer) with
    | some true => ConfirmOutcome.proceed
    | some false => ConfirmOutcome.abortExecution
    | none => ConfirmOutcome.valueError
  else ConfirmOutcome.proceed

/-- The results list produced by `Handler.spherify_all`, by selected mode
(`asyncio.run(self._gather_results())` when concurrent, else
`self._gather_results_non_async()`). -/
def spherify_all_results (cfg : Config) (engine : Engine)
    (saveOk : String → Bool) (inputs : List Node) :
    Except PyError (List (Option Image)) :=
  if cfg.concurrent then Handler.gather_results cfg engine saveOk inputs
  else (Handler.gather_results_non_async cfg engine saveOk inputs).2

/-- `__main__.main`: constructs the `Handler` (running the pre-flight
check) and only on successful construction calls `spherify_all`;
`AbortExecution` is caught and prints `Aborted.`, while a `ValueError`
from `strtobool` escapes. `none` in the second component means no target
was processed at all. -/
def handler_main (cfg : Config) (engine : Engine) (saveOk : String → Bool)
    (answer : String) (inputs : List Node) :
    ConfirmOutcome × Option (Except PyError (List (Option Image))) :=
  match handler_preflight cfg answer with
  | ConfirmOutcome.proceed =>
    (ConfirmOutcome.proceed, some (spherify_all_results cfg engine saveOk inputs))
  | o => (o, none)

/-- Claim C2: for every target whose engine subprocess writes any non-empty
content to standard error, the per-target pipeline (in either execution
mode, both being instances of `spherify_with`) returns an absent result for
that target and attempts no save — even when stdout also contains bytes
(the runner's stdout is unconstrained here). -/
theorem claim_C2 (cfg : Config) (runner : Image → Bytes × Bytes)
    (saveOk : String → Bool) (c : FileCand) (img : Image)
    (h1 : c.st = FileState.image img) (h2 : (runner img).2 ≠ []) :
    spherify_with cfg runner saveOk c = Except.ok (none, none) := by
  simp only [spherify_with, h1, load_image]
  simp [h2]

/-- Witness for C2: a concrete one-pixel image, an engine run that yields
both stdout bytes and stderr bytes, and a save directory configured. -/
theorem claim_C2_witness :
    ((fun _ : Image => (([7, 7, 7, 7] : Bytes), ([1] : Bytes)))
        (Image.mk 1 1 [0, 0, 0, 0])).2 ≠ [] ∧
    spherify_with
      (Config.mk (some "out") "sph_" true "0,0,0" "1.0" 1 500 500 "julia" "s.jl" true)
      (fun _ : Image => (([7, 7, 7, 7] : Bytes), ([1] : Bytes)))
      (fun _ => true)
      (FileCand.mk "a.png" (FileState.image (Image.mk 1 1 [0, 0, 0, 0]))) =
      Except.ok (none, none) := by
  refine ⟨by decide, claim_C2 _ _ _ _ (Image.mk 1 1 [0, 0, 0, 0]) rfl (by decide)⟩

/-- Claim C5: for every target that reaches the reconstruction step (empty
stderr), the output image is built from the engine's stdout bytes using the
original input image's width and height — not the requested snapshot
width/height (so whenever the two differ, the result's size differs from
the requested snapshot size). -/
theorem claim_C5 (cfg : Config) (runner : Image → Bytes × Bytes)
    (saveOk : String → Bool) (c : FileCand) (img : Image)
    (h1 : c.st = FileState.image img) (h2 : (runner img).2 = [])
    (h3 : save_ok_for cfg saveOk c = true) :
    (∃ sv, spherify_with cfg runner saveOk c =
      Except.ok (some (Image.mk img.width img.height (runner img).1), sv)) ∧
    (∀ stdout old_size, process_julia_output stdout old_size =
      Image.mk old_size.1 old_size.2 stdout) ∧
    (cfg.snapW ≠ img.width →
      (Image.mk img.width img.height (runner img).1).width ≠ cfg.snapW) := by
  refine ⟨?_, fun stdout old_size => rfl, fun h hw => h hw.symm⟩
  rcases hsd : cfg.saveDir with _ | d
  · refine ⟨none, ?_⟩
    simp [spherify_with, h1, load_image, h2, hsd, process_julia_output,
      img_from_bytes]
  · refine ⟨some (get_save_path cfg d c.name), ?_⟩
    have hs : saveOk (get_save_path cfg d c.name) = true := by
      simpa [save_ok_for, hsd] using h3
    simp [spherify_with, h1, load_image, h2, hsd, save_image, hs,
      process_julia_output, img_from_bytes]

/-- Witness for C5: a 1x1 input image, an echoing engine run with empty
stderr, snapshot size 500x500; the reconstructed image is 1x1. -/
theorem claim_C5_witness :
    ((FileCand.mk "a.png" (FileState.image (Image.mk 1 1 [9, 9, 9, 9]))).st =
      FileState.image (Image.mk 1 1 [9, 9, 9, 9])) ∧
    (∃ sv, spherify_with
      (Config.mk none "sph_" true "0,0,0" "1.0" 1 500 500 "julia" "s.jl" true)
      (fun i : Image => (i.data, []))
      (fun _ => true)
      (FileCand.mk "a.png" (FileState.image (Image.mk 1 1 [9, 9, 9, 9]))) =
      Except.ok (some (Image.mk 1 1 [9, 9, 9, 9]), sv)) := by
  refine ⟨rfl, ?_⟩
  exact (claim_C5 _ _ _ _ (Image.mk 1 1 [9, 9, 9, 9]) rfl rfl (by rfl)).1

/-- Claim C6: a directory input expands non-recursively into exactly its
direct file entries, in order: each direct file yields one candidate, each
direct sub-directory is skipped silently (it contributes nothing), and
nothing deeper than one level is visited (replacing the entire content of
a direct sub-directory never changes the expansion). -/
theorem claim_C6 (nm m : String) (children g g' cs1 cs2 : List Node)
    (f : String) (st : FileState) :
    Handler.path_iter [Node.dirNode nm children] = children.filterMap top_file ∧
    top_file (Node.dirNode m g) = none ∧
    Handler.path_iter [Node.dirNode nm (Node.fileNode f st :: children)] =
      FileCand.mk f st :: Handler.path_iter [Node.dirNode nm children] ∧
    Handler.path_iter [Node.dirNode nm (Node.dirNode m g :: children)] =
      Handler.path_iter [Node.dirNode nm children] ∧
    Handler.path_iter [Node.dirNode nm (cs1 ++ Node.dirNode m g :: cs2)] =
      Handler.path_iter [Node.dirNode nm (cs1 ++ Node.dirNode m g' :: cs2)] := by
  refine ⟨?_, rfl, ?_, ?_, ?_⟩
  · simp [Handler.path_iter]
  · simp [Handler.path_iter, top_file]
  · simp [Handler.path_iter, top_file]
  · simp [Handler.path_iter, List.filterMap_append, top_file]

/-- Helper: a candidate whose file is not absent and whose save stage can
succeed makes the per-target pipeline return normally. -/
theorem spherify_isOk (cfg : Config) (runner : Image → Bytes × Bytes)
    (saveOk : String → Bool) (c : FileCand)
    (h1 : c.st ≠ FileState.absent) (h2 : save_ok_for cfg saveOk c = true) :
    ∃ r, spherify_with cfg runner saveOk c = Except.ok r := by
  cases hst : c.st with
  | absent => exact absurd hst h1
  | unreadable => exact ⟨(none, none), by simp [spherify_with, load_image, hst]⟩
  | unrecognized => exact ⟨(none, none), by simp [spherify_with, load_image, hst]⟩
  | image img =>
    by_cases he : (runner img).2 = []
    · rcases hsd : cfg.saveDir with _ | d
      · refine ⟨(some (process_julia_output (runner img).1 (img.width, img.height)),
          none), ?_⟩
        simp [spherify_with, load_image, hst, he, hsd]
      · have hs : saveOk (get_save_path cfg d c.name) = true := by
          simpa [save_ok_for, hsd] using h2
        refine ⟨(some (process_julia_output (runner img).1 (img.width, img.height)),
          some (get_save_path cfg d c.name)), ?_⟩
        simp [spherify_with, load_image, hst, he, hsd, save_image, hs]
    · exact ⟨(none, none), by simp [spherify_with, load_image, hst, he]⟩

/-- Helper: on a normally returning candidate, the pipeline's value is
exactly the pair of its recorded outcome and save path. -/
theorem spherify_eq_pair (cfg : Config) (runner : Image → Bytes × Bytes)
    (saveOk : String → Bool) (c : FileCand) (r : Option Image × Option String)
    (h : spherify_with cfg runner saveOk c = Except.ok r) :
    result_of cfg runner saveOk c = r.1 ∧ save_rec cfg runner saveOk c = r.2 := by
  constructor <;> simp [result_of, save_rec, h]

/-- Helper: when every candidate returns normally, the concurrent-mode
collection succeeds and is the entry-wise list of outcomes, in order. -/
theorem gather_map_of_ok (cfg : Config) (runner : Image → Bytes × Bytes)
    (saveOk : String → Bool) (cands : List FileCand)
    (h : ∀ c ∈ cands, ∃ r, spherify_with cfg runner saveOk c = Except.ok r) :
    gather_map cfg runner saveOk cands =
      Except.ok (cands.map (result_of cfg runner saveOk)) := by
  induction cands with
  | nil => rfl
  | cons c rest ih =>
    obtain ⟨r, hr⟩ := h c (List.mem_cons_self c rest)
    have hrest := ih (fun x hx => h x (List.mem_cons_of_mem _ hx))
    have hres := (spherify_eq_pair cfg runner saveOk c r hr).1
    simp [gather_map, hr, hrest, hres, Except.map]

/-- Helper: when every candidate returns normally, the sequential-mode
collection succeeds with the entry-wise list of outcomes and records
exactly the save paths of the candidates that saved. -/
theorem gather_fold_of_ok (cfg : Config) (runner : Image → Bytes × Bytes)
    (saveOk : String → Bool) (cands : List FileCand)
    (h : ∀ c ∈ cands, ∃ r, spherify_with cfg runner saveOk c = Except.ok r) :
    gather_fold cfg runner saveOk cands =
      (cands.filterMap (save_rec cfg runner saveOk),
       Except.ok (cands.map (result_of cfg runner saveOk))) := by
  induction cands with
  | nil => rfl
  | cons c rest ih =>
    obtain ⟨r, hr⟩ := h c (List.mem_cons_self c rest)
    have hrest := ih (fun x hx => h x (List.mem_cons_of_mem _ hx))
    obtain ⟨hres, hsv⟩ := spherify_eq_pair cfg runner saveOk c r hr
    simp only [gather_fold, hr, hrest]
    cases hr2 : r.2 <;>
      simp [List.filterMap_cons, hsv, hr2, hres, Option.toList]

/-- Claim C1: after a batch completes, the results collection contains
exactly one entry (an image or an absence marker) per resolved file
candidate, in input order, in both execution modes — regardless of how
many individual targets failed at the load stage (unreadable or
unrecognized files) or at the engine stage (non-empty stderr), since such
failures still return normally with an absent entry. -/
theorem claim_C1 (cfg : Config) (engine : Engine) (saveOk : String → Bool)
    (inputs : List Node)
    (h : ∀ c ∈ Handler.path_iter inputs,
      c.st ≠ FileState.absent ∧ save_ok_for cfg saveOk c = true) :
    Handler.gather_results cfg engine saveOk inputs =
      Except.ok ((Handler.path_iter inputs).map
        (result_of cfg (run_julia engine cfg) saveOk)) ∧
    (Handler.gather_results_non_async cfg engine saveOk inputs).2 =
      Except.ok ((Handler.path_iter inputs).map
        (result_of cfg (run_julia_non_async engine cfg) saveOk)) ∧
    (∀ rs, Handler.gather_results cfg engine saveOk inputs = Except.ok rs →
      rs.length = (Handler.path_iter inputs).length) := by
  have hok1 : ∀ c ∈ Handler.path_iter inputs,
      ∃ r, spherify_with cfg (run_julia engine cfg) saveOk c = Except.ok r :=
    fun c hc => spherify_isOk cfg _ saveOk c (h c hc).1 (h c hc).2
  have hok2 : ∀ c ∈ Handler.path_iter inputs,
      ∃ r, spherify_with cfg (run_julia_non_async engine cfg) saveOk c = Except.ok r :=
    fun c hc => spherify_isOk cfg _ saveOk c (h c hc).1 (h c hc).2
  have h1 : Handler.gather_results cfg engine saveOk inputs =
      Except.ok ((Handler.path_iter inputs).map
        (result_of cfg (run_julia engine cfg) saveOk)) :=
    gather_map_of_ok cfg _ saveOk _ hok1
  refine ⟨h1, ?_, ?_⟩
  · have := gather_fold_of_ok cfg (run_julia_non_async engine cfg) saveOk
      (Handler.path_iter inputs) hok2
    simp [Handler.gather_results_non_async, this]
  · intro rs hrs
    rw [h1] at hrs
    cases hrs
    simp

/-- Witness for C1: a batch of one directory holding a good file, an
unrecognized file and a sub-directory, plus one direct good file; the
engine echoes stdin with empty stderr. Both modes yield four resolved
candidates minus the skipped sub-directory: three entries, one absent. -/
theorem claim_C1_witness :
    (∀ c ∈ Handler.path_iter
        [Node.dirNode "photos"
          [Node.fileNode "a.png" (FileState.image (Image.mk 1 1 [1, 2, 3, 4])),
           Node.fileNode "bad.png" FileState.unrecognized,
           Node.dirNode "nested" [Node.fileNode "deep.png" FileState.unrecognized]],
         Node.fileNode "c.png" (FileState.image (Image.mk 1 1 [5, 6, 7, 8]))],
      c.st ≠ FileState.absent ∧
        save_ok_for
          (Config.mk none "sph_" true "0,0,0" "1.0" 1 8 8 "julia" "s.jl" true)
          (fun _ => true) c = true) ∧
    Handler.gather_results
      (Config.mk none "sph_" true "0,0,0" "1.0" 1 8 8 "julia" "s.jl" true)
      (fun _ stdin => (stdin, []))
      (fun _ => true)
      [Node.dirNode "photos"
        [Node.fileNode "a.png" (FileState.image (Image.mk 1 1 [1, 2, 3, 4])),
         Node.fileNode "bad.png" FileState.unrecognized,
         Node.dirNode "nested" [Node.fileNode "deep.png" FileState.unrecognized]],
       Node.fileNode "c.png" (FileState.image (Image.mk 1 1 [5, 6, 7, 8]))] =
      Except.ok [some (Image.mk 1 1 [1, 2, 3, 4]), none,
        some (Image.mk 1 1 [5, 6, 7, 8])] := by
  refine ⟨by decide, ?_⟩
  have := (claim_C1
    (Config.mk none "sph_" true "0,0,0" "1.0" 1 8 8 "julia" "s.jl" true)
    (fun _ stdin => (stdin, []))
    (fun _ => true)
    [Node.dirNode "photos"
      [Node.fileNode "a.png" (FileState.image (Image.mk 1 1 [1, 2, 3, 4])),
       Node.fileNode "bad.png" FileState.unrecognized,
       Node.dirNode "nested" [Node.fileNode "deep.png" FileState.unrecognized]],
     Node.fileNode "c.png" (FileState.image (Image.mk 1 1 [5, 6, 7, 8]))]
    (by decide)).1
  simpa using this

/-- Helper: a candidate whose file is unreadable or unrecognized makes the
pipeline return an absent result with no save, under any runner. -/
theorem spherify_load_fail (cfg : Config) (runner : Image → Bytes × Bytes)
    (saveOk : String → Bool) (c : FileCand)
    (h : c.st = FileState.unreadable ∨ c.st = FileState.unrecognized) :
    spherify_with cfg runner saveOk c = Except.ok (none, none) := by
  rcases h with h | h <;> simp [spherify_with, load_image, h]

/-- Claim C3: a target whose load fails with a permission error
(Unreadable) or an unidentifiable format (Unrecognized) gets `None` from
the load operation, an absent per-target result with no save attempt (in
either mode, via the shared pipeline), and every sibling target is still
processed to its own standalone outcome in both execution modes. -/
theorem claim_C3 (cfg : Config) (engine : Engine) (saveOk : String → Bool)
    (c : FileCand) (pre post : List FileCand)
    (h1 : c.st = FileState.unreadable ∨ c.st = FileState.unrecognized)
    (h2 : ∀ p ∈ pre ++ post,
      p.st ≠ FileState.absent ∧ save_ok_for cfg saveOk p = true) :
    load_image c.st = Except.ok none ∧
    (∀ runner, spherify_with cfg runner saveOk c = Except.ok (none, none)) ∧
    gather_map cfg (run_julia engine cfg) saveOk (pre ++ c :: post) =
      Except.ok (pre.map (result_of cfg (run_julia engine cfg) saveOk) ++
        none :: post.map (result_of cfg (run_julia engine cfg) saveOk)) ∧
    (gather_fold cfg (run_julia_non_async engine cfg) saveOk (pre ++ c :: post)).2 =
      Except.ok (pre.map (result_of cfg (run_julia_non_async engine cfg) saveOk) ++
        none :: post.map (result_of cfg (run_julia_non_async engine cfg) saveOk)) := by
  have hload : load_image c.st = Except.ok none := by
    rcases h1 with h | h <;> simp [load_image, h]
  have hco : ∀ runner, spherify_with cfg runner saveOk c = Except.ok (none, none) :=
    fun runner => spherify_load_fail cfg runner saveOk c h1
  have hcst : c.st ≠ FileState.absent := by
    rcases h1 with h | h <;> simp [h]
  have hcso : save_ok_for cfg saveOk c = true ∨ True := Or.inr trivial
  have hall : ∀ runner, ∀ p ∈ pre ++ c :: post,
      ∃ r, spherify_with cfg runner saveOk p = Except.ok r := by
    intro runner p hp
    rcases List.mem_append.mp hp with hl | hr
    · exact spherify_isOk cfg runner saveOk p (h2 p (List.mem_append_left _ hl)).1
        (h2 p (List.mem_append_left _ hl)).2
    · rcases List.mem_cons.mp hr with rfl | hr
      · exact ⟨(none, none), hco runner⟩
      · exact spherify_isOk cfg runner saveOk p (h2 p (List.mem_append_right _ hr)).1
          (h2 p (List.mem_append_right _ hr)).2
  have hres : ∀ runner, result_of cfg runner saveOk c = none :=
    fun runner => (spherify_eq_pair cfg runner saveOk c (none, none) (hco runner)).1
  refine ⟨hload, hco, ?_, ?_⟩
  · rw [gather_map_of_ok cfg _ saveOk _ (hall _)]
    simp [hres]
  · rw [gather_fold_of_ok cfg _ saveOk _ (hall _)]
    simp [hres]

/-- Witness for C3: an unrecognized file between two good files, echoing
engine, no save directory; both modes produce present-absent-present. -/
theorem claim_C3_witness :
    ((FileCand.mk "b.png" FileState.unrecognized).st = FileState.unreadable ∨
      (FileCand.mk "b.png" FileState.unrecognized).st = FileState.unrecognized) ∧
    (∀ p ∈ [FileCand.mk "a.png" (FileState.image (Image.mk 1 1 [1, 1, 1, 1]))] ++
        [FileCand.mk "c.png" (FileState.image (Image.mk 1 1 [2, 2, 2, 2]))],
      p.st ≠ FileState.absent ∧
        save_ok_for
          (Config.mk none "sph_" true "0,0,0" "1.0" 1 8 8 "julia" "s.jl" true)
          (fun _ => true) p = true) ∧
    gather_map
      (Config.mk none "sph_" true "0,0,0" "1.0" 1 8 8 "julia" "s.jl" true)
      (run_julia (fun _ stdin => (stdin, []))
        (Config.mk none "sph_" true "0,0,0" "1.0" 1 8 8 "julia" "s.jl" true))
      (fun _ => true)
      ([FileCand.mk "a.png" (FileState.image (Image.mk 1 1 [1, 1, 1, 1]))] ++
        FileCand.mk "b.png" FileState.unrecognized ::
        [FileCand.mk "c.png" (FileState.image (Image.mk 1 1 [2, 2, 2, 2]))]) =
      Except.ok [some (Image.mk 1 1 [1, 1, 1, 1]), none,
        some (Image.mk 1 1 [2, 2, 2, 2])] := by
  refine ⟨Or.inr rfl, by decide, ?_⟩
  have := (claim_C3
    (Config.mk none "sph_" true "0,0,0" "1.0" 1 8 8 "julia" "s.jl" true)
    (fun _ stdin => (stdin, []))
    (fun _ => true)
    (FileCand.mk "b.png" FileState.unrecognized)
    [FileCand.mk "a.png" (FileState.image (Image.mk 1 1 [1, 1, 1, 1]))]
    [FileCand.mk "c.png" (FileState.image (Image.mk 1 1 [2, 2, 2, 2]))]
    (Or.inr rfl) (by decide)).2.2.1
  simpa using this

/-- Helper: a loadable image with empty stderr whose save write fails makes
the pipeline raise `writeFailed` (nothing catches the `Image.save` error). -/
theorem spherify_write_fail (cfg : Config) (runner : Image → Bytes × Bytes)
    (saveOk : String → Bool) (c : FileCand) (img : Image) (d : String)
    (hd : cfg.saveDir = some d)
    (h1 : c.st = FileState.image img) (h2 : (runner img).2 = [])
    (h3 : saveOk (get_save_path cfg d c.name) = false) :
    spherify_with cfg runner saveOk c = Except.error PyError.writeFailed := by
  simp [spherify_with, load_image, h1, h2, hd, save_image, h3]

/-- Helper: the sequential collection over a prefix of normally returning
candidates followed by a remainder: the prefix contributes its save paths
and outcomes up front, and the remainder decides success or abort. -/
theorem gather_fold_append (cfg : Config) (runner : Image → Bytes × Bytes)
    (saveOk : String → Bool) (pre rest : List FileCand)
    (h : ∀ p ∈ pre, ∃ r, spherify_with cfg runner saveOk p = Except.ok r) :
    gather_fold cfg runner saveOk (pre ++ rest) =
      (pre.filterMap (save_rec cfg runner saveOk) ++
        (gather_fold cfg runner saveOk rest).1,
       match (gather_fold cfg runner saveOk rest).2 with
       | Except.error e => Except.error e
       | Except.ok rs =>
         Except.ok (pre.map (result_of cfg runner saveOk) ++ rs)) := by
  induction pre with
  | nil =>
    simp only [List.nil_append, List.filterMap_nil, List.map_nil]
    cases hg : (gather_fold cfg runner saveOk rest).2
    all_goals
      simp only [hg]
      rw [← hg]
  | cons p ptl ih =>
    obtain ⟨r, hr⟩ := h p (List.mem_cons_self p ptl)
    obtain ⟨hres, hsv⟩ := spherify_eq_pair cfg runner saveOk p r hr
    have ih2 := ih (fun x hx => h x (List.mem_cons_of_mem _ hx))
    cases hg : (gather_fold cfg runner saveOk rest).2 <;>
      cases hr2 : r.2 <;>
        simp [gather_fold, hr, ih2, hsv, hr2, hres, hg, List.filterMap_cons,
          Option.toList, List.cons_append]

/-- Claim C9: when a target's image was produced (load succeeded, stderr
empty) but its save to the configured directory fails, the failure is
surfaced as an exception out of the per-target pipeline and out of the
sequential batch (not swallowed into an absent entry), while the save
paths already written by earlier targets remain recorded (no rollback). -/
theorem claim_C9 (cfg : Config) (runner : Image → Bytes × Bytes)
    (saveOk : String → Bool) (d : String) (pre post : List FileCand)
    (c : FileCand) (img : Image)
    (hd : cfg.saveDir = some d)
    (hpre : ∀ p ∈ pre, p.st ≠ FileState.absent ∧ save_ok_for cfg saveOk p = true)
    (h1 : c.st = FileState.image img)
    (h2 : (runner img).2 = [])
    (h3 : saveOk (get_save_path cfg d c.name) = false) :
    spherify_with cfg runner saveOk c = Except.error PyError.writeFailed ∧
    gather_fold cfg runner saveOk (pre ++ c :: post) =
      (pre.filterMap (save_rec cfg runner saveOk),
       Except.error PyError.writeFailed) := by
  have hw := spherify_write_fail cfg runner saveOk c img d hd h1 h2 h3
  refine ⟨hw, ?_⟩
  have hok : ∀ p ∈ pre, ∃ r, spherify_with cfg runner saveOk p = Except.ok r :=
    fun p hp => spherify_isOk cfg runner saveOk p (hpre p hp).1 (hpre p hp).2
  rw [gather_fold_append cfg runner saveOk pre (c :: post) hok]
  have hcp : gather_fold cfg runner saveOk (c :: post) =
      ([], Except.error PyError.writeFailed) := by
    simp [gather_fold, hw]
  simp [hcp]

/-- Witness for C9: one good file saved to `out/sph_a.png`, then a file
whose save at `out/sph_b.png` fails; the batch aborts with `writeFailed`
and the earlier save remains recorded. -/
theorem claim_C9_witness :
    ((Config.mk (some "out") "sph_" false "0,0,0" "1.0" 1 8 8 "julia" "s.jl"
        false).saveDir = some "out") ∧
    ((fun s => !(s == "out/sph_b.png"))
      (get_save_path
        (Config.mk (some "out") "sph_" false "0,0,0" "1.0" 1 8 8 "julia" "s.jl"
          false) "out" "b.png") = false) ∧
    gather_fold
      (Config.mk (some "out") "sph_" false "0,0,0" "1.0" 1 8 8 "julia" "s.jl"
        false)
      (fun i : Image => (i.data, []))
      (fun s => !(s == "out/sph_b.png"))
      ([FileCand.mk "a.png" (FileState.image (Image.mk 1 1 [1, 1, 1, 1]))] ++
        FileCand.mk "b.png" (FileState.image (Image.mk 1 1 [2, 2, 2, 2])) ::
        [FileCand.mk "c.png" (FileState.image (Image.mk 1 1 [3, 3, 3, 3]))]) =
      (["out/sph_a.png"], Except.error PyError.writeFailed) := by
  refine ⟨rfl, by decide, ?_⟩
  have := (claim_C9
    (Config.mk (some "out") "sph_" false "0,0,0" "1.0" 1 8 8 "julia" "s.jl" false)
    (fun i : Image => (i.data, []))
    (fun s => !(s == "out/sph_b.png"))
    "out"
    [FileCand.mk "a.png" (FileState.image (Image.mk 1 1 [1, 1, 1, 1]))]
    [FileCand.mk "c.png" (FileState.image (Image.mk 1 1 [3, 3, 3, 3]))]
    (FileCand.mk "b.png" (FileState.image (Image.mk 1 1 [2, 2, 2, 2])))
    (Image.mk 1 1 [2, 2, 2, 2])
    rfl (by decide) rfl rfl (by decide)).2
  simpa using this

/-- Claim C7 (evidence of the code's actual behavior): a single input path
that does not exist makes `load_image` raise `FileNotFoundError` — the
`img_path.stat().st_size` call in its log f-string sits outside the `try`
block — and the exception escapes the batch in both execution modes
instead of producing an absent entry. -/
theorem claim_C7_evidence :
    load_image FileState.absent = Except.error PyError.fileNotFound ∧
    Handler.gather_results
      (Config.mk none "sph_" true "0,0,0" "1.0" 1 8 8 "julia" "s.jl" true)
      (fun _ stdin => (stdin, []))
      (fun _ => true)
      [Node.fileNode "missing.png" FileState.absent] =
      Except.error PyError.fileNotFound ∧
    (Handler.gather_results_non_async
      (Config.mk none "sph_" false "0,0,0" "1.0" 1 8 8 "julia" "s.jl" false)
      (fun _ stdin => (stdin, []))
      (fun _ => true)
      [Node.fileNode "missing.png" FileState.absent]).2 =
      Except.error PyError.fileNotFound := by
  refine ⟨rfl, rfl, rfl⟩

/-- Claim C8: the pre-flight prompt fires exactly when display is disabled
and no save directory is configured; a recognised negative answer then
aborts via `AbortExecution` before any target is processed; and whenever
the prompt condition does not hold, the run proceeds straight to
processing regardless of the answer. -/
theorem claim_C8 (cfg : Config) (engine : Engine) (saveOk : String → Bool)
    (answer : String) (inputs : List Node) :
    (preflight_prompted cfg = true ↔ (cfg.display = false ∧ cfg.saveDir = none)) ∧
    (cfg.display = false → cfg.saveDir = none →
      strtobool (py_lower answer) = some false →
      handler_main cfg engine saveOk answer inputs =
        (ConfirmOutcome.abortExecution, none)) ∧
    (preflight_prompted cfg = false →
      handler_main cfg engine saveOk answer inputs =
        (ConfirmOutcome.proceed,
         some (spherify_all_results cfg engine saveOk inputs))) := by
  refine ⟨?_, ?_, ?_⟩
  · cases hD : cfg.display <;> rcases hS : cfg.saveDir with _ | d <;>
      simp [preflight_prompted, hD, hS]
  · intro hD hS hans
    simp [handler_main, handler_preflight, preflight_prompted, hD, hS, hans]
  · intro hP
    simp [handler_main, handler_preflight, hP]

/-- Witness for C8: display disabled, no save directory, answer `n`: the
run aborts cleanly before processing. -/
theorem claim_C8_witness :
    ((Config.mk none "sph_" false "0,0,0" "1.0" 1 8 8 "julia" "s.jl"
        true).display = false) ∧
    (strtobool (py_lower "n") = some false) ∧
    handler_main
      (Config.mk none "sph_" false "0,0,0" "1.0" 1 8 8 "julia" "s.jl" true)
      (fun _ stdin => (stdin, []))
      (fun _ => true)
      "n"
      [Node.fileNode "a.png" (FileState.image (Image.mk 1 1 [1, 1, 1, 1]))] =
      (ConfirmOutcome.abortExecution, none) := by
  refine ⟨rfl, by decide, ?_⟩
  exact (claim_C8
    (Config.mk none "sph_" false "0,0,0" "1.0" 1 8 8 "julia" "s.jl" true)
    (fun _ stdin => (stdin, []))
    (fun _ => true)
    "n"
    [Node.fileNode "a.png" (FileState.image (Image.mk 1 1 [1, 1, 1, 1]))]).2.1
    rfl rfl (by decide)

/-- Claim C10: during the pre-flight prompt (display disabled, no save
directory), an answer outside the tokens recognised by `strtobool` makes
`Handler` construction end in an uncaught `ValueError` — not
`AbortExecution` and not normal construction — so the batch neither aborts
cleanly nor proceeds to processing. -/
theorem claim_C10 (cfg : Config) (engine : Engine) (saveOk : String → Bool)
    (answer : String) (inputs : List Node)
    (hD : cfg.display = false) (hS : cfg.saveDir = none)
    (hans : strtobool (py_lower answer) = none) :
    handler_main cfg engine saveOk answer inputs =
      (ConfirmOutcome.valueError, none) ∧
    ConfirmOutcome.valueError ≠ ConfirmOutcome.abortExecution ∧
    ConfirmOutcome.valueError ≠ ConfirmOutcome.proceed := by
  refine ⟨?_, by decide, by decide⟩
  simp [handler_main, handler_preflight, preflight_prompted, hD, hS, hans]

/-- Witness for C10: the unrecognised answer `maybe` ends construction in
`ValueError` with no processing. -/
theorem claim_C10_witness :
    (strtobool (py_lower "maybe") = none) ∧
    handler_main
      (Config.mk none "sph_" false "0,0,0" "1.0" 1 8 8 "julia" "s.jl" true)
      (fun _ stdin => (stdin, []))
      (fun _ => true)
      "maybe"
      [Node.fileNode "a.png" (FileState.image (Image.mk 1 1 [1, 1, 1, 1]))] =
      (ConfirmOutcome.valueError, none) := by
  refine ⟨by decide, ?_⟩
  exact (claim_C10
    (Config.mk none "sph_" false "0,0,0" "1.0" 1 8 8 "julia" "s.jl" true)
    (fun _ stdin => (stdin, []))
    (fun _ => true)
    "maybe"
    [Node.fileNode "a.png" (FileState.image (Image.mk 1 1 [1, 1, 1, 1]))]
    rfl rfl (by decide)).1

end Spherify
